import Mathlib

/-!
Shallow embedding of the reactive core of the `violit` repository
(`src/violit/state.py`, `src/violit/app.py`, `src/violit/component.py`,
`src/violit/engine.py`), together with theorems settling the claims about
its dependency tracking, session isolation, component-id generation,
action dispatch, component registration routing, full rendering, and the
operator overloading on reactive values.

Conventions of the embedding:
* Python dicts become Lean functions into `Option`, Python sets become
  duplicate-free lists (insertion order fixed as one determinization of
  Python's unspecified set iteration order).
* Python values that flow through signals are modelled by `PyVal`
  (integers, strings, booleans); a Python `TypeError` raised by a native
  operator is modelled as `none`.
* The ambient context variables (`session_ctx`, `rendering_ctx`,
  `fragment_ctx`, `layout_ctx`) become explicit parameters.
* The session store's `theme`, `toasts`, `effects` and `eval_queue`
  entries are irrelevant to every claim treated here and are carried only
  where they influence control flow (they never do in the modelled paths).
-/

namespace Violit

/-- Python runtime values as they occur in the reactive core: integers,
strings and booleans.  A native operation that would raise `TypeError`
is modelled by `Option.none` at its use site. -/
inductive PyVal where
  | vInt (n : Int)
  | vStr (s : String)
  | vBool (b : Bool)
  deriving DecidableEq, Repr

/-- Decimal digit list of a natural number, most significant digit
first, by structural recursion on a fuel bound (any fuel above the
number itself yields the digits); the embedding of Python's `str(n)` /
f-string formatting for the non-negative integers used as component
counters. -/
def natDigitsF : Nat → Nat → List Char
  | 0, _ => []
  | fuel + 1, n =>
      if n < 10 then [Nat.digitChar n]
      else natDigitsF fuel (n / 10) ++ [Nat.digitChar (n % 10)]

/-- Decimal digit list of a natural number, most significant first. -/
def natDigits (n : Nat) : List Char := natDigitsF (n + 1) n

/-- Decimal string of a natural number (`str(n)` in Python). -/
def natStr (n : Nat) : String := ⟨natDigits n⟩

/-- Python's `str` applied to a `PyVal` (`str(int)` is the decimal form,
`str` on a string is the identity, `str(True) = "True"`). -/
def pyStr : PyVal → String
  | .vInt n => if n < 0 then "-" ++ natStr n.natAbs else natStr n.toNat
  | .vStr s => s
  | .vBool b => if b then "True" else "False"

/-- `isinstance(v, str)` for a runtime value. -/
def PyVal.isStrVal : PyVal → Bool
  | .vStr _ => true
  | _ => false

/-- `isinstance(v, int)` for a runtime value; in Python `bool` is a
subtype of `int`, so booleans qualify. -/
def PyVal.isIntVal : PyVal → Bool
  | .vInt _ => true
  | .vBool _ => true
  | _ => false

/-- Add an element to a Python set modelled as a duplicate-free list. -/
def setAdd (l : List String) (x : String) : List String :=
  if x ∈ l then l else l ++ [x]

/-- Union of two Python sets modelled as duplicate-free lists
(`aff.update(...)` in `_get_dirty_rendered`). -/
def setUnion (a b : List String) : List String :=
  b.foldl setAdd a

/-- `DependencyTracker` from `state.py`: a map from signal name to the
set of component ids that read it (`subscribers: Dict[str, Set[str]]`). -/
structure DependencyTracker where
  subscribers : String → List String

/-- `DependencyTracker.register_dependency`. -/
def DependencyTracker.register_dependency (t : DependencyTracker)
    (state_name component_id : String) : DependencyTracker :=
  ⟨fun s => if s = state_name then setAdd (t.subscribers state_name) component_id
            else t.subscribers s⟩

/-- `DependencyTracker.get_dirty_components`: `subscribers.get(name, set())`. -/
def DependencyTracker.get_dirty_components (t : DependencyTracker)
    (state_name : String) : List String :=
  t.subscribers state_name

/-- A `Component` from `component.py`, restricted to the shape produced by
the builders modelled here: an optional tag, an id, and a `content` prop
(other props and the `escape_content` flag are never set on these). -/
structure Component where
  tag : Option String
  id : String
  content : String
  deriving DecidableEq, Repr

/-- `Component.render` for the modelled shape: a tagless component renders
its content, a tagged one renders `<tag id="...">content</tag>`. -/
def Component.render (c : Component) : String :=
  match c.tag with
  | none => c.content
  | some t => "<" ++ t ++ " id=\x22" ++ c.id ++ "\x22 >" ++ c.content ++ "</" ++ t ++ ">"

/-- A render function registered for a component id.  Builders in the
source are closures; the two shapes that the claims exercise are a
constant fragment of HTML and the `simple_card`-style builder that sets
`rendering_ctx` to its own id, reads one signal's `.value` (registering a
dependency edge) and renders `str(value)`. -/
inductive Builder where
  | constHtml (html : String)
  | showState (state_name : String) (default_value : PyVal)
  deriving Repr

/-- An action callback registered for a component id.  The claims only
need callbacks that write a signal or do nothing. -/
inductive ActionFn where
  | setSignal (state_name : String) (v : PyVal)
  | noop
  deriving Repr

/-- One session store: the dict allocated by `get_session_store`.
`dirty_states` is created lazily by `State.set` in the source
(`if 'dirty_states' not in store: store['dirty_states'] = set()`); an
absent key behaves exactly like an empty set everywhere it is read, so it
is modelled as a list starting empty. -/
structure Store where
  states : String → Option PyVal
  tracker : DependencyTracker
  builders : String → Option Builder
  actions : String → Option ActionFn
  component_count : Nat
  fragment_components : String → List (String × Builder)
  order : List String
  sidebar_order : List String
  dirty_states : List String
  theme : String

/-- The process-wide `GLOBAL_STORE` keyed by session id; the static
(no-session) context uses key `none`.  The TTL behaviour of the cache is
out of scope of the claims treated here, so the cache is a plain map. -/
def Global : Type := Option String → Option Store

/-- The statics of the `App` object that the reactive core touches:
process-wide builders/actions/order lists and the fragment child lists,
plus the theme preset consulted when a session store is created. -/
structure App where
  static_builders : String → Option Builder
  static_actions : String → Option ActionFn
  static_order : List String
  static_sidebar_order : List String
  static_fragment_components : String → List (String × Builder)
  theme_preset : String

/-- The store freshly allocated by `get_session_store` on a cache miss. -/
def freshStore (base_count : Nat) (initial_theme : String) : Store where
  states := fun _ => none
  tracker := ⟨fun _ => []⟩
  builders := fun _ => none
  actions := fun _ => none
  component_count := base_count
  fragment_components := fun _ => []
  order := []
  sidebar_order := []
  dirty_states := []
  theme := initial_theme

/-- `get_session_store` from `state.py`: look up the session id in the
global store; on a miss allocate a fresh store whose `component_count`
is inherited from the static (`None`) store when that exists.  Returns
the store together with the (possibly extended) global map. -/
def get_session_store (app : App) (g : Global) (sid : Option String) :
    Store × Global :=
  match g sid with
  | some st => (st, g)
  | none =>
      let base_count : Nat :=
        match g none with
        | some st0 => st0.component_count
        | none => 0
      let fresh := freshStore base_count app.theme_preset
      (fresh, fun k => if k = sid then some fresh else g k)

/-- Write one session's store back into the global map. -/
def Global.put (g : Global) (sid : Option String) (st : Store) : Global :=
  fun k => if k = sid then some st else g k

/-- The `State` class of `state.py`: a signal handle holding only its
name and default value (the current value lives in the session store). -/
structure State where
  name : String
  default_value : PyVal

/-- The `value` property read at the store level, given the current
`rendering_ctx`: when a component is rendering, register the dependency
edge, then return `store['states'].get(name, default)`. -/
def State.valueRead (s : State) (rendering : Option String) (st : Store) :
    PyVal × Store :=
  let st' :=
    match rendering with
    | some cid => { st with tracker := st.tracker.register_dependency s.name cid }
    | none => st
  ((st.states s.name).getD s.default_value, st')

/-- `State.set` at the store level: store the new value and add the
signal's name to the session's dirty set. -/
def State.setStore (s : State) (new_value : PyVal) (st : Store) : Store :=
  { st with
    states := fun k => if k = s.name then some new_value else st.states k
    dirty_states := setAdd st.dirty_states s.name }

/-- `State.set` at the global level: `get_session_store()` for the current
session id, then mutate that store. -/
def State.set (s : State) (app : App) (sid : Option String) (new_value : PyVal)
    (g : Global) : Global :=
  let (st, g') := get_session_store app g sid
  g'.put sid (s.setStore new_value st)

/-- `State.value` at the global level: resolve the session store, perform
the read (with its dependency-registration side effect), write the store
back. -/
def State.valueG (s : State) (app : App) (sid : Option String)
    (rendering : Option String) (g : Global) : PyVal × Global :=
  let (st, g') := get_session_store app g sid
  let (v, st') := s.valueRead rendering st
  (v, g'.put sid st')

/-- Run a builder closure for the component id it closed over.  A
`showState` builder mirrors `simple_card` with a `State` content: it sets
`rendering_ctx` to its own id, reads the signal's `.value` (which
registers the dependency edge), resets the context and returns a `div`
component whose content is `str(value)`. -/
def Builder.run (b : Builder) (cid : String) (st : Store) : Component × Store :=
  match b with
  | .constHtml h => (⟨none, cid, h⟩, st)
  | .showState state_name default_value =>
      let (v, st') := (State.mk state_name default_value).valueRead (some cid) st
      (⟨some "div", cid, pyStr v⟩, st')

/-- Run an action callback against the session store (the modelled
callbacks either write one signal through `State.set`'s store-level
effect or do nothing). -/
def ActionFn.run (a : ActionFn) (st : Store) : Store :=
  match a with
  | .setSignal state_name v => (State.mk state_name v).setStore v st
  | .noop => st

/-- The id string `f"{prefix}_{n}"` built by `App._get_next_cid`. -/
def mkCid (pre : String) (n : Nat) : String :=
  pre ++ "_" ++ natStr n

/-- `App._get_next_cid`: `f"{prefix}_{store['component_count']}"`, then
increment the store's counter. -/
def _get_next_cid (app : App) (g : Global) (sid : Option String)
    (pre : String) : String × Global :=
  let (store, g1) := get_session_store app g sid
  let cid := mkCid pre store.component_count
  (cid, g1.put sid { store with component_count := store.component_count + 1 })

/-- A run of `_get_next_cid` calls with the given prefixes in one
session context, collecting the generated ids (the shape of a
registration pass: the static pass runs with no session, a session's
dynamic pass runs with its session id). -/
def genCids (app : App) (sid : Option String) (pres : List String)
    (g : Global) : List String × Global :=
  match pres with
  | [] => ([], g)
  | p :: rest =>
      let (cid, g') := _get_next_cid app g sid p
      let (cids, g'') := genCids app sid rest g'
      (cid :: cids, g'')

/-- `App._register_component`, with the ambient `session_ctx`,
`fragment_ctx` and `layout_ctx` passed explicitly.  Returns the updated
statics and global map.  The source first writes the builder (and the
action, when given) into the resolved session store, then routes the id
according to fragment scope, layout target and session presence. -/
def _register_component (app : App) (g : Global) (sid : Option String)
    (curr_frag : Option String) (l_ctx : String) (cid : String)
    (builder : Builder) (action : Option ActionFn) : App × Global :=
  let (store, g1) := get_session_store app g sid
  let store :=
    { store with
      builders := fun k => if k = cid then some builder else store.builders k
      actions := fun k =>
        match action with
        | some a => if k = cid then some a else store.actions k
        | none => store.actions k }
  match curr_frag with
  | some fid =>
      if l_ctx = "sidebar" then
        match sid with
        | none =>
            let app :=
              { app with
                static_builders := fun k => if k = cid then some builder else app.static_builders k
                static_actions := fun k =>
                  match action with
                  | some a => if k = cid then some a else app.static_actions k
                  | none => app.static_actions k
                static_sidebar_order :=
                  if cid ∈ app.static_sidebar_order then app.static_sidebar_order
                  else app.static_sidebar_order ++ [cid] }
            (app, g1.put sid store)
        | some _ =>
            -- `if action: store['actions'][cid] = action` is a re-write of the
            -- entry already made above, so the store is unchanged here.
            (app, g1.put sid { store with sidebar_order := store.sidebar_order ++ [cid] })
      else
        match sid with
        | none =>
            let app :=
              { app with
                static_fragment_components := fun k =>
                  if k = fid then app.static_fragment_components fid ++ [(cid, builder)]
                  else app.static_fragment_components k
                static_actions := fun k =>
                  match action with
                  | some a => if k = cid then some a else app.static_actions k
                  | none => app.static_actions k
                static_builders := fun k => if k = cid then some builder else app.static_builders k }
            (app, g1.put sid store)
        | some _ =>
            (app, g1.put sid
              { store with fragment_components := fun k =>
                  if k = fid then store.fragment_components fid ++ [(cid, builder)]
                  else store.fragment_components k })
  | none =>
      match sid with
      | none =>
          let app :=
            { app with
              static_builders := fun k => if k = cid then some builder else app.static_builders k
              static_actions := fun k =>
                match action with
                | some a => if k = cid then some a else app.static_actions k
                | none => app.static_actions k }
          let app :=
            if l_ctx = "sidebar" then
              { app with static_sidebar_order :=
                  if cid ∈ app.static_sidebar_order then app.static_sidebar_order
                  else app.static_sidebar_order ++ [cid] }
            else
              { app with static_order :=
                  if cid ∈ app.static_order then app.static_order
                  else app.static_order ++ [cid] }
          (app, g1.put sid store)
      | some _ =>
          if l_ctx = "sidebar" then
            (app, g1.put sid { store with sidebar_order := store.sidebar_order ++ [cid] })
          else
            (app, g1.put sid { store with order := store.order ++ [cid] })

/-- Builder lookup used by both render paths:
`store['builders'].get(cid) or self.static_builders.get(cid)`. -/
def resolveBuilder (app : App) (st : Store) (cid : String) : Option Builder :=
  match st.builders cid with
  | some b => some b
  | none => app.static_builders cid

/-- The inner `render_cids` of `App._render_all`: walk the id list,
resolve each builder (session first, statics as fallback), silently skip
unresolved ids, and collect `builder().render()`, threading the store
through the builders' dependency-registration effects. -/
def render_cids (app : App) (cids : List String) (acc : List String)
    (st : Store) : List String × Store :=
  match cids with
  | [] => (acc, st)
  | cid :: rest =>
      match resolveBuilder app st cid with
      | some b =>
          let (c, st') := b.run cid st
          render_cids app rest (acc ++ [c.render]) st'
      | none => render_cids app rest acc st

/-- `App._render_all`: render the static main order, the static sidebar
order, the session's dynamic main order and dynamic sidebar order (in
that call order), and return the joined main and sidebar HTML strings. -/
def _render_all (app : App) (st : Store) : (String × String) × Store :=
  let (main₁, st₁) := render_cids app app.static_order [] st
  let (side₁, st₂) := render_cids app app.static_sidebar_order [] st₁
  let (main₂, st₃) := render_cids app st.order main₁ st₂
  let (side₂, st₄) := render_cids app st.sidebar_order side₁ st₃
  ((String.join main₂, String.join side₂), st₄)

/-- `App._render_all` at the global level: resolve the session's store,
render, and write the store (with its fresh dependency edges) back. -/
def _render_allG (app : App) (sid : Option String) (g : Global) :
    (String × String) × Global :=
  let (st, g1) := get_session_store app g sid
  let (out, st') := _render_all app st
  (out, g1.put sid st')

/-- The component-building loop of `App._get_dirty_rendered`: for each
affected id, resolve its builder (session first, static fallback), skip
ids with no builder, and collect the freshly built components. -/
def buildDirty (app : App) (cids : List String) (acc : List Component)
    (st : Store) : List Component × Store :=
  match cids with
  | [] => (acc, st)
  | cid :: rest =>
      match resolveBuilder app st cid with
      | some b =>
          let (c, st') := b.run cid st
          buildDirty app rest (acc ++ [c]) st'
      | none => buildDirty app rest acc st

/-- `App._get_dirty_rendered`: drain the session's dirty-signal set,
union the tracker's subscriber sets over the drained names, rebuild each
affected component that has a builder, and return the fresh components. -/
def _get_dirty_rendered (app : App) (st : Store) : List Component × Store :=
  let aff := st.dirty_states.foldl
    (fun acc s => setUnion acc (st.tracker.get_dirty_components s)) []
  let st := { st with dirty_states := [] }
  buildDirty app aff [] st

/-- Insert `' hx-swap-oob="true"'` into one rendered component, as
`LiteEngine.wrap_oob` does: after `.strip()`, split at the first space
(falling back to the first `'>'`; Python's `find` returns `-1` when
neither occurs, which slices as "before the last character"). -/
def injectOob (r : List Char) : List Char :=
  let attr := (" hx-swap-oob=\x22true\x22").data
  match r.findIdx? (· = ' ') with
  | some i => r.take i ++ attr ++ r.drop i
  | none =>
      match r.findIdx? (· = '>') with
      | some i => r.take i ++ attr ++ r.drop i
      | none => r.dropLast ++ attr ++ r.drop (r.length - 1)

/-- `LiteEngine.wrap_oob`: concatenate each component's stripped render
with the out-of-band attribute injected into its root tag. -/
def wrap_oob (components : List Component) : String :=
  components.foldl (fun h c => h ++ ⟨injectOob c.render.trim.data⟩) ""

/-- Action lookup used by both engines:
`store['actions'].get(cid) or self.static_actions.get(cid)`. -/
def resolveAction (app : App) (st : Store) (cid : String) : Option ActionFn :=
  match st.actions cid with
  | some a => some a
  | none => app.static_actions cid

/-- The core of the stateless `/action/{cid}` endpoint (after the CSRF
check has passed): resolve the session store and the action callback; a
missing callback returns an empty response body.  Otherwise run the
callback, collect the dirty components, split off the clicked component
(re-rendering it even when it is not dirty), and answer with its HTML
followed by the other dirty components wrapped out-of-band.  The toast
and effect injector blocks are not modelled (no modelled action queues
any). -/
def action_endpoint (app : App) (g : Global) (sid : Option String)
    (cid : String) : String × Global :=
  let (store, g1) := get_session_store app g sid
  match resolveAction app store cid with
  | none => ("", g1)
  | some act =>
      let store := act.run store
      let (dirty, store) := _get_dirty_rendered app store
      let clicked := dirty.find? (fun c => c.id = cid)
      let other_dirty := dirty.filter (fun c => c.id ≠ cid)
      let (clicked, store) :=
        match clicked with
        | some c => (some c, store)
        | none =>
            match resolveBuilder app store cid with
            | some b =>
                let (c, store') := b.run cid store
                (some c, store')
            | none => (none, store)
      let response_html :=
        (match clicked with
         | some c => c.render
         | none => "") ++ wrap_oob other_dirty
      (response_html, g1.put sid store)

/-- A message the persistent-channel engine can push to a client. -/
inductive WsMessage where
  | update (payload : List (String × String)) (isNavigation : Bool)
  | evalCode (code : String)
  deriving DecidableEq, Repr

/-- `WsEngine.push_updates`: when the session has an open socket, send a
single update message whose payload pairs each component's id with its
render; otherwise drop the push silently. -/
def push_updates (connected : Bool) (components : List Component) :
    List WsMessage :=
  if connected then [.update (components.map fun c => (c.id, c.render)) false]
  else []

/-- The core of the websocket `process_message` handler for a `click`
message (after the native-token/CSRF checks have passed): resolve the
action; when none is registered nothing is pushed.  Otherwise run it and
push the dirty components when there are any.  The `eval_queue` drain is
not modelled (no modelled action queues client code). -/
def process_message (app : App) (g : Global) (sid : String)
    (connected : Bool) (cid : String) : List WsMessage × Global :=
  let (store, g1) := get_session_store app g (some sid)
  match resolveAction app store cid with
  | none => ([], g1)
  | some act =>
      let store := act.run store
      let (dirty, store) := _get_dirty_rendered app store
      let pushes := if dirty.isEmpty then [] else push_updates connected dirty
      (pushes, g1.put (some sid) store)

/-! ### Reactive operators (`State.__add__`, `State.__mul__`, comparisons)

The operator closures read `self.value` and, when the operand is itself a
`State` or `ComputedState`, `other.value`.  Reading `.value` inside a
render pass also registers a dependency edge; that side effect is the
`register_dependency` call modelled in `Builder.run` and never changes
any value read, so the value semantics of the closures is modelled as a
pure function of the store. -/

/-- The value a signal resolves to in a store (`states.get(name, default)`),
without the dependency-registration side effect. -/
def State.peek (s : State) (st : Store) : PyVal :=
  (st.states s.name).getD s.default_value

/-- Python `int(v)` view used by the native numeric operators: booleans
are integers in Python; strings are not. -/
def toIntVal? : PyVal → Option Int
  | .vInt n => some n
  | .vBool b => some (if b then 1 else 0)
  | .vStr _ => none

/-- Native Python `+` on runtime values: string concatenation on two
strings, integer addition when both operands are numeric (booleans count
as integers), `TypeError` (`none`) on a string/number mix. -/
def py_add (a b : PyVal) : Option PyVal :=
  match a, b with
  | .vStr s, .vStr t => some (.vStr (s ++ t))
  | _, _ =>
      match toIntVal? a, toIntVal? b with
      | some x, some y => some (.vInt (x + y))
      | _, _ => none

/-- Python string repetition `s * n` (non-positive counts give `""`). -/
def strRepeat (s : String) (n : Int) : String :=
  String.join (List.replicate n.toNat s)

/-- Native Python `*` on runtime values: string-by-integer repetition,
integer multiplication when both operands are numeric, `TypeError`
(`none`) when both are strings. -/
def py_mul (a b : PyVal) : Option PyVal :=
  match a, b with
  | .vStr _, .vStr _ => none
  | .vStr s, _ => (toIntVal? b).map (fun n => .vStr (strRepeat s n))
  | _, .vStr t => (toIntVal? a).map (fun n => .vStr (strRepeat t n))
  | _, _ =>
      match toIntVal? a, toIntVal? b with
      | some x, some y => some (.vInt (x * y))
      | _, _ => none

/-- Native Python `==` on runtime values: numeric equality across
int/bool, string equality on strings, `False` on a string/number mix. -/
def py_eq (a b : PyVal) : Bool :=
  match a, b with
  | .vStr s, .vStr t => s = t
  | .vStr _, _ => false
  | _, .vStr _ => false
  | _, _ =>
      match toIntVal? a, toIntVal? b with
      | some x, some y => x = y
      | _, _ => false

/-- Native Python `<` on runtime values: lexicographic on two strings,
numeric otherwise, `TypeError` (`none`) on a string/number mix. -/
def py_lt (a b : PyVal) : Option Bool :=
  match a, b with
  | .vStr s, .vStr t => some (decide (s < t))
  | _, _ =>
      match toIntVal? a, toIntVal? b with
      | some x, some y => some (decide (x < y))
      | _, _ => none

/-- Native Python `<=`, by the same type rules as `py_lt`. -/
def py_le (a b : PyVal) : Option Bool :=
  match a, b with
  | .vStr s, .vStr t => some (decide (s ≤ t))
  | _, _ =>
      match toIntVal? a, toIntVal? b with
      | some x, some y => some (decide (x ≤ y))
      | _, _ => none

/-- `ComputedState` from `state.py`: a derived signal wrapping a closure,
evaluated lazily on each `.value` read. -/
structure ComputedState where
  func : Store → Option PyVal

/-- The operand of an overloaded operator, as discriminated by
`isinstance(other, (State, ComputedState))` in the source: another
signal, a derived signal, or a plain value. -/
inductive Operand where
  | stateOp (s : State)
  | computedOp (c : ComputedState)
  | plainOp (v : PyVal)

/-- `other.value if isinstance(other, (State, ComputedState)) else other`. -/
def Operand.value (o : Operand) (st : Store) : Option PyVal :=
  match o with
  | .stateOp s => some (s.peek st)
  | .computedOp c => c.func st
  | .plainOp v => some v

/-- `State.__add__`: a derived signal; when read, if either operand's
value is a string, concatenate the `str(...)` forms, else add natively. -/
def State.__add__ (s : State) (other : Operand) : ComputedState :=
  ⟨fun st =>
    let self_val := s.peek st
    match other.value st with
    | none => none
    | some other_val =>
        if self_val.isStrVal || other_val.isStrVal then
          some (.vStr (pyStr self_val ++ pyStr other_val))
        else
          py_add self_val other_val⟩

/-- `State.__radd__`: the reflected `+`; when read, if either operand's
value is a string, concatenate the `str(...)` forms in reflected order,
else add natively in reflected order. -/
def State.__radd__ (s : State) (other : Operand) : ComputedState :=
  ⟨fun st =>
    let self_val := s.peek st
    match other.value st with
    | none => none
    | some other_val =>
        if self_val.isStrVal || other_val.isStrVal then
          some (.vStr (pyStr other_val ++ pyStr self_val))
        else
          py_add other_val self_val⟩

/-- `State.__mul__`: a derived signal; the source's branch structure
distinguishes string/int combinations but every branch evaluates the
native `self_val * other_val`. -/
def State.__mul__ (s : State) (other : Operand) : ComputedState :=
  ⟨fun st =>
    let self_val := s.peek st
    match other.value st with
    | none => none
    | some other_val =>
        if self_val.isStrVal || other_val.isStrVal then
          if self_val.isStrVal && other_val.isIntVal then
            py_mul self_val other_val
          else if other_val.isStrVal && self_val.isIntVal then
            py_mul self_val other_val
          else
            py_mul self_val other_val
        else
          py_mul self_val other_val⟩

/-- `State.__rmul__`: the reflected `*`; the source's branch structure
distinguishes string/int combinations but every branch evaluates the
native `other_val * self_val`. -/
def State.__rmul__ (s : State) (other : Operand) : ComputedState :=
  ⟨fun st =>
    let self_val := s.peek st
    match other.value st with
    | none => none
    | some other_val =>
        if self_val.isStrVal || other_val.isStrVal then
          if other_val.isStrVal && self_val.isIntVal then
            py_mul other_val self_val
          else if self_val.isStrVal && other_val.isIntVal then
            py_mul other_val self_val
          else
            py_mul other_val self_val
        else
          py_mul other_val self_val⟩

/-- `ComputedState.__add__`, mirroring `State.__add__`. -/
def ComputedState.__add__ (c : ComputedState) (other : Operand) : ComputedState :=
  ⟨fun st =>
    match c.func st with
    | none => none
    | some self_val =>
        match other.value st with
        | none => none
        | some other_val =>
            if self_val.isStrVal || other_val.isStrVal then
              some (.vStr (pyStr self_val ++ pyStr other_val))
            else
              py_add self_val other_val⟩

/-- `ComputedState.__mul__`, mirroring `State.__mul__` (every branch is
the native `self_val * other_val`). -/
def ComputedState.__mul__ (c : ComputedState) (other : Operand) : ComputedState :=
  ⟨fun st =>
    match c.func st with
    | none => none
    | some self_val =>
        match other.value st with
        | none => none
        | some other_val =>
            if self_val.isStrVal || other_val.isStrVal then
              if self_val.isStrVal && other_val.isIntVal then
                py_mul self_val other_val
              else if other_val.isStrVal && self_val.isIntVal then
                py_mul self_val other_val
              else
                py_mul self_val other_val
            else
              py_mul self_val other_val⟩

/-- `ComputedState.__radd__`, mirroring `State.__radd__`. -/
def ComputedState.__radd__ (c : ComputedState) (other : Operand) : ComputedState :=
  ⟨fun st =>
    match c.func st with
    | none => none
    | some self_val =>
        match other.value st with
        | none => none
        | some other_val =>
            if self_val.isStrVal || other_val.isStrVal then
              some (.vStr (pyStr other_val ++ pyStr self_val))
            else
              py_add other_val self_val⟩

/-- `ComputedState.__rmul__`, mirroring `State.__rmul__` (every branch is
the native `other_val * self_val`). -/
def ComputedState.__rmul__ (c : ComputedState) (other : Operand) : ComputedState :=
  ⟨fun st =>
    match c.func st with
    | none => none
    | some self_val =>
        match other.value st with
        | none => none
        | some other_val =>
            if self_val.isStrVal || other_val.isStrVal then
              if other_val.isStrVal && self_val.isIntVal then
                py_mul other_val self_val
              else if self_val.isStrVal && other_val.isIntVal then
                py_mul other_val self_val
              else
                py_mul other_val self_val
            else
              py_mul other_val self_val⟩

/-- `State.__eq__`: a derived signal wrapping the deferred comparison
`self.value == (other.value if isinstance(...) else other)`. -/
def State.__eq__ (s : State) (other : Operand) : ComputedState :=
  ⟨fun st => (other.value st).map (fun ov => .vBool (py_eq (s.peek st) ov))⟩

/-- `State.__ne__`: the deferred `!=`. -/
def State.__ne__ (s : State) (other : Operand) : ComputedState :=
  ⟨fun st => (other.value st).map (fun ov => .vBool (!py_eq (s.peek st) ov))⟩

/-- `State.__lt__`: the deferred `<` (native `<` may raise on mixed
string/number operands, hence the inner `Option`). -/
def State.__lt__ (s : State) (other : Operand) : ComputedState :=
  ⟨fun st => (other.value st).bind
    (fun ov => (py_lt (s.peek st) ov).map PyVal.vBool)⟩

/-- `State.__le__`: the deferred `<=`. -/
def State.__le__ (s : State) (other : Operand) : ComputedState :=
  ⟨fun st => (other.value st).bind
    (fun ov => (py_le (s.peek st) ov).map PyVal.vBool)⟩

/-- `State.__gt__`: the deferred `>`. -/
def State.__gt__ (s : State) (other : Operand) : ComputedState :=
  ⟨fun st => (other.value st).bind
    (fun ov => (py_lt ov (s.peek st)).map PyVal.vBool)⟩

/-- `State.__ge__`: the deferred `>=`. -/
def State.__ge__ (s : State) (other : Operand) : ComputedState :=
  ⟨fun st => (other.value st).bind
    (fun ov => (py_le ov (s.peek st)).map PyVal.vBool)⟩

/-- The slice of Python's class data model relevant to hashability: does
the class override `__eq__`, and does it define `__hash__`? -/
structure PyClass where
  overrides_eq : Bool
  defines_hash : Bool

/-- Python data-model rule: a class that overrides `__eq__` without also
defining `__hash__` has its `__hash__` set to `None`, so its instances
are unhashable. -/
def PyClass.hashable (c : PyClass) : Bool :=
  !(c.overrides_eq && !c.defines_hash)

/-- The `State` class as declared in `state.py`: it overrides `__eq__`
(line 87) and defines no `__hash__` anywhere in the class body. -/
def StateClass : PyClass := ⟨true, false⟩

/-! ### Specification-side definitions and concrete fixtures -/

/-- The full render as the specification words it (for the refinement
claim about `_render_all`): concatenate, in list order, the renders of
the static main order followed by the session's dynamic main order, each
id resolved through the session's builders first with the static
builders as fallback, silently skipping unresolved ids; likewise for the
sidebar.  Every id is rendered against the same initial store. -/
def render_all_spec (app : App) (st : Store) : String × String :=
  let renderOf : String → Option String :=
    fun cid => (resolveBuilder app st cid).map (fun b => (b.run cid st).1.render)
  (String.join ((app.static_order ++ st.order).filterMap renderOf),
   String.join ((app.static_sidebar_order ++ st.sidebar_order).filterMap renderOf))

/-- Numeric value of a decimal digit list (left inverse of `natDigits`,
used to prove decimal strings injective). -/
def listVal (ds : List Char) : Nat :=
  ds.foldl (fun a c => 10 * a + (c.toNat - 48)) 0

/-- The empty global store (process start). -/
def gEmpty : Global := fun _ => none

/-- An `App` with empty static registries (used by concrete witnesses). -/
def appNoStatics : App :=
  ⟨fun _ => none, fun _ => none, [], [], fun _ => [], "light"⟩

/-- The signal of the incremental-render scenario: `count`, default 0. -/
def countSig : State := ⟨"count", .vInt 0⟩

/-- A session store holding one component `c1` whose builder renders
`str(count.value)` (the incremental-render scenario's setup). -/
def storeC1 : Store :=
  { freshStore 0 "light" with
      builders := fun k => if k = "c1" then some (.showState "count" (.vInt 0)) else none
      order := ["c1"] }

/-! ## Theorems

First the auxiliary lemmas shared between claims: the injectivity of the
generated id strings, membership in the modelled Python sets, and the
store-field preservation facts for builders and renders. -/

theorem listVal_append_single (ds : List Char) (c : Char) :
    listVal (ds ++ [c]) = 10 * listVal ds + (c.toNat - 48) := by
  simp [listVal, List.foldl_append]

theorem digitChar_toNat_sub (d : Nat) (h : d < 10) :
    (Nat.digitChar d).toNat - 48 = d := by
  interval_cases d <;> rfl

theorem digitChar_ne_underscore (d : Nat) (h : d < 10) :
    Nat.digitChar d ≠ '_' := by
  interval_cases d <;> decide

theorem listVal_natDigitsF (fuel : Nat) :
    ∀ n, n < fuel → listVal (natDigitsF fuel n) = n := by
  induction fuel with
  | zero => intro n h; omega
  | succ f ih =>
      intro n h
      by_cases h10 : n < 10
      · simp [natDigitsF, h10, listVal, digitChar_toNat_sub n h10]
      · have hdiv : n / 10 < f := by
          have := Nat.div_lt_self (by omega : 0 < n) (by omega : 1 < 10)
          omega
        simp only [natDigitsF, if_neg h10, listVal_append_single, ih _ hdiv,
          digitChar_toNat_sub (n % 10) (Nat.mod_lt _ (by omega))]
        omega

theorem natDigits_inj {n m : Nat} (h : natDigits n = natDigits m) : n = m := by
  have h1 := listVal_natDigitsF (n + 1) n (by omega)
  have h2 := listVal_natDigitsF (m + 1) m (by omega)
  rw [natDigits, natDigits] at h
  rw [← h1, ← h2, h]

theorem underscore_not_mem_natDigitsF (fuel : Nat) :
    ∀ n, '_' ∉ natDigitsF fuel n := by
  induction fuel with
  | zero => intro n; simp [natDigitsF]
  | succ f ih =>
      intro n
      by_cases h10 : n < 10
      · simp [natDigitsF, h10]
        exact (digitChar_ne_underscore n h10).symm
      · simp [natDigitsF, h10]
        refine ⟨fun hmem => ih (n / 10) hmem, ?_⟩
        exact fun hc => digitChar_ne_underscore (n % 10) (Nat.mod_lt _ (by omega)) hc.symm

theorem underscore_not_mem_natDigits (n : Nat) : '_' ∉ natDigits n :=
  underscore_not_mem_natDigitsF (n + 1) n

theorem sep_eq : ∀ (a b x y : List Char), '_' ∉ x → '_' ∉ y →
    a ++ '_' :: x = b ++ '_' :: y → a = b ∧ x = y := by
  intro a
  induction a with
  | nil =>
      intro b x y hx hy h
      cases b with
      | nil => simpa using h
      | cons c b' =>
          simp only [List.nil_append, List.cons_append, List.cons.injEq] at h
          exact absurd (by rw [h.2]; exact List.mem_append_right b' (List.mem_cons_self _ _)) hx
  | cons c a' ih =>
      intro b x y hx hy h
      cases b with
      | nil =>
          simp only [List.cons_append, List.nil_append, List.cons.injEq] at h
          exact absurd (by rw [← h.2]; exact List.mem_append_right a' (List.mem_cons_self _ _)) hy
      | cons c' b' =>
          simp only [List.cons_append, List.cons.injEq] at h
          obtain ⟨rfl, h2⟩ := h
          obtain ⟨h3, h4⟩ := ih b' x y hx hy h2
          exact ⟨by rw [h3], h4⟩

theorem mkCid_num_eq {p q : String} {n m : Nat} (h : mkCid p n = mkCid q m) :
    n = m := by
  have hd : p.data ++ '_' :: (natStr n).data = q.data ++ '_' :: (natStr m).data := by
    have := congrArg String.data h
    simpa [mkCid, String.data_append] using this
  have := sep_eq p.data q.data (natStr n).data (natStr m).data
    (underscore_not_mem_natDigits n) (underscore_not_mem_natDigits m) hd
  exact natDigits_inj this.2

theorem mkCid_ne_of_num_ne {p q : String} {n m : Nat} (h : n ≠ m) :
    mkCid p n ≠ mkCid q m :=
  fun hc => h (mkCid_num_eq hc)

theorem mem_setAdd {l : List String} {x y : String} :
    x ∈ setAdd l y ↔ x ∈ l ∨ x = y := by
  by_cases h : y ∈ l
  · simp only [setAdd, if_pos h]
    constructor
    · exact Or.inl
    · rintro (hx | rfl) <;> assumption
  · simp [setAdd, if_neg h]

theorem mem_setAdd_self (l : List String) (y : String) : y ∈ setAdd l y :=
  mem_setAdd.mpr (Or.inr rfl)

theorem mem_setUnion {x : String} : ∀ (b a : List String),
    x ∈ setUnion a b ↔ x ∈ a ∨ x ∈ b := by
  intro b
  induction b with
  | nil => intro a; simp [setUnion]
  | cons y b' ih =>
      intro a
      show x ∈ setUnion (setAdd a y) b' ↔ _
      rw [ih, mem_setAdd]
      simp only [List.mem_cons]
      tauto

theorem mem_affected (tr : DependencyTracker) :
    ∀ (dirty init : List String) (x : String),
    x ∈ dirty.foldl (fun acc s => setUnion acc (tr.get_dirty_components s)) init ↔
      x ∈ init ∨ ∃ s ∈ dirty, x ∈ tr.get_dirty_components s := by
  intro dirty
  induction dirty with
  | nil => intro init x; simp
  | cons d rest ih =>
      intro init x
      rw [List.foldl_cons, ih, mem_setUnion]
      simp only [List.mem_cons]
      constructor
      · rintro ((h | h) | h)
        · exact Or.inl h
        · exact Or.inr ⟨d, Or.inl rfl, h⟩
        · obtain ⟨s, hs, hx⟩ := h
          exact Or.inr ⟨s, Or.inr hs, hx⟩
      · rintro (h | ⟨s, (rfl | hs), hx⟩)
        · exact Or.inl (Or.inl h)
        · exact Or.inl (Or.inr hx)
        · exact Or.inr ⟨s, hs, hx⟩

theorem Builder.run_id (b : Builder) (cid : String) (st : Store) :
    (b.run cid st).1.id = cid := by
  cases b <;> rfl

theorem Builder.run_builders (b : Builder) (cid : String) (st : Store) :
    ((b.run cid st).2).builders = st.builders := by
  cases b <;> rfl

theorem Builder.run_states (b : Builder) (cid : String) (st : Store) :
    ((b.run cid st).2).states = st.states := by
  cases b <;> rfl

theorem Builder.run_dirty_states (b : Builder) (cid : String) (st : Store) :
    ((b.run cid st).2).dirty_states = st.dirty_states := by
  cases b <;> rfl

theorem Builder.run_fst_congr (b : Builder) (cid : String) {st st' : Store}
    (h : st'.states = st.states) : (b.run cid st').1 = (b.run cid st).1 := by
  cases b with
  | constHtml h' => rfl
  | showState n d => simp [Builder.run, State.valueRead, h]

theorem resolveBuilder_congr (app : App) (cid : String) {st st' : Store}
    (h : st'.builders = st.builders) :
    resolveBuilder app st' cid = resolveBuilder app st cid := by
  simp [resolveBuilder, h]

theorem buildDirty_mem_acc (app : App) : ∀ (cids : List String)
    (acc : List Component) (st : Store) (x : Component),
    x ∈ acc → x ∈ (buildDirty app cids acc st).1 := by
  intro cids
  induction cids with
  | nil => intro acc st x hx; exact hx
  | cons cid rest ih =>
      intro acc st x hx
      show x ∈ (match resolveBuilder app st cid with
        | some b => buildDirty app rest (acc ++ [(b.run cid st).1]) (b.run cid st).2
        | none => buildDirty app rest acc st).1
      cases hres : resolveBuilder app st cid with
      | some b => exact ih _ _ x (List.mem_append_left _ hx)
      | none => exact ih _ _ x hx

theorem buildDirty_mem_of (app : App) : ∀ (cids : List String)
    (acc : List Component) (st : Store) (cid : String),
    cid ∈ cids → (resolveBuilder app st cid).isSome →
    ∃ c ∈ (buildDirty app cids acc st).1, c.id = cid := by
  intro cids
  induction cids with
  | nil => intro acc st cid h; simp at h
  | cons y rest ih =>
      intro acc st cid hmem hres
      show ∃ c ∈ (match resolveBuilder app st y with
        | some b => buildDirty app rest (acc ++ [(b.run y st).1]) (b.run y st).2
        | none => buildDirty app rest acc st).1, c.id = cid
      rcases List.mem_cons.mp hmem with rfl | htail
      · cases hy : resolveBuilder app st cid with
        | some b =>
            refine ⟨(b.run cid st).1, ?_, Builder.run_id b cid st⟩
            exact buildDirty_mem_acc app rest _ _ _
              (List.mem_append_right _ (List.mem_cons_self _ _))
        | none => rw [hy] at hres; simp at hres
      · cases hy : resolveBuilder app st y with
        | some b =>
            refine ih _ _ cid htail ?_
            rw [resolveBuilder_congr app cid (Builder.run_builders b y st)]
            exact hres
        | none => exact ih _ _ cid htail hres

theorem buildDirty_ids (app : App) : ∀ (cids : List String)
    (acc : List Component) (st : Store) (c : Component),
    c ∈ (buildDirty app cids acc st).1 → c ∈ acc ∨ c.id ∈ cids := by
  intro cids
  induction cids with
  | nil => intro acc st c hc; exact Or.inl hc
  | cons y rest ih =>
      intro acc st c hc
      have hc' : c ∈ (match resolveBuilder app st y with
        | some b => buildDirty app rest (acc ++ [(b.run y st).1]) (b.run y st).2
        | none => buildDirty app rest acc st).1 := hc
      cases hy : resolveBuilder app st y with
      | some b =>
          rw [hy] at hc'
          rcases ih _ _ c hc' with hacc | hid
          · rcases List.mem_append.mp hacc with h | h
            · exact Or.inl h
            · simp only [List.mem_singleton] at h
              subst h
              exact Or.inr (by rw [Builder.run_id]; exact List.mem_cons_self _ _)
          · exact Or.inr (List.mem_cons_of_mem _ hid)
      | none =>
          rw [hy] at hc'
          rcases ih _ _ c hc' with hacc | hid
          · exact Or.inl hacc
          · exact Or.inr (List.mem_cons_of_mem _ hid)

/-- C1: if a component `C`'s builder reads signal `S`'s `.value` during a
render pass (while `C` is the currently-rendering component, so the read
registers the dependency edge), then after writing `S` the next dirty
render includes a freshly built `C` — provided `C`'s builder is
registered (in the session store or the static registry), which is what
makes `C` a component of the session. -/
theorem dirty_render_includes_reader (app : App) (st : Store) (S : State)
    (C : String) (v : PyVal) (hb : (resolveBuilder app st C).isSome) :
    ∃ c ∈ (_get_dirty_rendered app
      (S.setStore v ((S.valueRead (some C) st).2))).1, c.id = C := by
  have hread : (S.valueRead (some C) st).2 =
      { st with tracker := st.tracker.register_dependency S.name C } := rfl
  set st₂ := S.setStore v ((S.valueRead (some C) st).2) with hst₂
  have htracker : st₂.tracker = st.tracker.register_dependency S.name C := rfl
  have hdirty : S.name ∈ st₂.dirty_states := by
    show S.name ∈ setAdd _ S.name
    exact mem_setAdd_self _ _
  have hsub : C ∈ st₂.tracker.get_dirty_components S.name := by
    rw [htracker]
    show C ∈ (if S.name = S.name then setAdd (st.tracker.subscribers S.name) C
              else st.tracker.subscribers S.name)
    rw [if_pos rfl]
    exact mem_setAdd_self _ _
  show ∃ c ∈ (buildDirty app
      (st₂.dirty_states.foldl
        (fun acc s => setUnion acc (st₂.tracker.get_dirty_components s)) [])
      [] { st₂ with dirty_states := [] }).1, c.id = C
  apply buildDirty_mem_of
  · exact (mem_affected st₂.tracker st₂.dirty_states [] C).mpr
      (Or.inr ⟨S.name, hdirty, hsub⟩)
  · have hbuilders : ({ st₂ with dirty_states := ([] : List String)}).builders
        = st.builders := rfl
    rw [resolveBuilder_congr app C hbuilders]
    exact hb

/-- Concrete instance of `dirty_render_includes_reader`: the `c1`/`count`
store, reading `count` while `c1` renders, then writing `5`. -/
theorem dirty_render_includes_reader_witness :
    (((_get_dirty_rendered appNoStatics
      (countSig.setStore (.vInt 5)
        ((countSig.valueRead (some "c1") storeC1).2))).1).any
      (fun c => c.id == "c1")) = true := by
  obtain ⟨c, hc, hid⟩ := dirty_render_includes_reader appNoStatics storeC1 countSig "c1"
    (.vInt 5) (by decide)
  exact List.any_eq_true.mpr ⟨c, hc, by simp [hid]⟩

/-- C2: if component `C` never read signal `S` (so the tracker has no
edge from `S`'s name to `C`) and the session's dirty set was drained
(as every dirty render leaves it), then writing `S` never includes `C`
in the next dirty render. -/
theorem dirty_render_no_false_positives (app : App) (st : Store) (S : State)
    (C : String) (v : PyVal)
    (h_edge : C ∉ st.tracker.subscribers S.name)
    (h_clean : st.dirty_states = []) :
    ∀ c ∈ (_get_dirty_rendered app (S.setStore v st)).1, c.id ≠ C := by
  intro c hc hcid
  set st₂ := S.setStore v st with hst₂
  have htracker : st₂.tracker = st.tracker := rfl
  have hdirty : st₂.dirty_states = [S.name] := by
    show setAdd st.dirty_states S.name = [S.name]
    rw [h_clean]
    rfl
  have hc' : c ∈ (buildDirty app
      (st₂.dirty_states.foldl
        (fun acc s => setUnion acc (st₂.tracker.get_dirty_components s)) [])
      [] { st₂ with dirty_states := [] }).1 := hc
  rcases buildDirty_ids app _ _ _ c hc' with habs | hid
  · simp at habs
  · rw [mem_affected] at hid
    rcases hid with habs | ⟨s, hs, hsub⟩
    · simp at habs
    · rw [hdirty] at hs
      simp only [List.mem_singleton] at hs
      subst hs
      rw [htracker] at hsub
      rw [hcid] at hsub
      exact h_edge hsub

/-- Concrete instance of `dirty_render_no_false_positives`: `c1` never
read the signal `other`, so writing `other` re-renders nothing with id
`c1`. -/
theorem dirty_render_no_false_positives_witness :
    (((_get_dirty_rendered appNoStatics
      ((State.mk "other" (.vInt 0)).setStore (.vInt 1) storeC1)).1).all
      (fun c => c.id != "c1")) = true := by
  have h := dirty_render_no_false_positives appNoStatics storeC1
    (State.mk "other" (.vInt 0)) "c1" (.vInt 1) (by decide) (by decide)
  exact List.all_eq_true.mpr (fun c hc => by simpa using h c hc)

/-- C3: with signal `count` (default 0) and a single component `c1`
whose builder renders `str(count.value)`: after one full render pass and
`write(count, 5)`, the dirty render returns exactly one component, `c1`,
with content `"5"`; an immediately following dirty render with no
intervening write returns the empty list. -/
theorem scenario_count_write_dirty_render :
    (((_get_dirty_rendered appNoStatics
        (countSig.setStore (.vInt 5)
          (_render_all appNoStatics storeC1).2)).1).map
      (fun c => (c.id, c.content)) = [("c1", "5")]) ∧
    (_get_dirty_rendered appNoStatics
      ((_get_dirty_rendered appNoStatics
        (countSig.setStore (.vInt 5)
          (_render_all appNoStatics storeC1).2)).2)).1 = [] := by
  decide

theorem set_preserves_other (app : App) (S : State) (sid : Option String)
    (v : PyVal) (g : Global) :
    ∀ k, k ≠ sid → S.set app sid v g k = g k := by
  intro k hk
  show (match g sid with
    | some st => (st, g)
    | none => _).2.put sid _ k = g k
  cases g sid with
  | some st =>
      show (if k = sid then _ else g k) = g k
      rw [if_neg hk]
  | none =>
      show (if k = sid then _ else if k = sid then _ else g k) = g k
      rw [if_neg hk, if_neg hk]

theorem get_session_store_congr (app : App) {g₁ g₂ : Global}
    (sid : Option String) (h1 : g₁ sid = g₂ sid) (h2 : g₁ none = g₂ none) :
    (get_session_store app g₁ sid).1 = (get_session_store app g₂ sid).1 := by
  unfold get_session_store
  rw [h1, h2]
  cases g₂ sid <;> rfl

/-- C4: two-run session noninterference — for distinct session ids `A`
and `B`, writing any signal in session `A` leaves every signal value
read in session `B` (any signal handle, any rendering context) and all
of session `B`'s full-render output unchanged. -/
theorem session_write_noninterference (app : App) (S : State) (A B : String)
    (v : PyVal) (g : Global) (hAB : A ≠ B) :
    (∀ (T : State) (r : Option String),
      (T.valueG app (some B) r (S.set app (some A) v g)).1 =
        (T.valueG app (some B) r g).1) ∧
    (_render_allG app (some B) (S.set app (some A) v g)).1 =
      (_render_allG app (some B) g).1 := by
  have hB : S.set app (some A) v g (some B) = g (some B) :=
    set_preserves_other app S (some A) v g (some B)
      (by simp [Option.some_inj]; exact fun h => hAB h.symm)
  have hnone : S.set app (some A) v g none = g none :=
    set_preserves_other app S (some A) v g none (by simp)
  have hstore : (get_session_store app (S.set app (some A) v g) (some B)).1 =
      (get_session_store app g (some B)).1 :=
    get_session_store_congr app (some B) hB hnone
  constructor
  · intro T r
    show (T.valueRead r (get_session_store app (S.set app (some A) v g) (some B)).1).1 =
      (T.valueRead r (get_session_store app g (some B)).1).1
    rw [hstore]
  · show (_render_all app (get_session_store app (S.set app (some A) v g) (some B)).1).1 =
      (_render_all app (get_session_store app g (some B)).1).1
    rw [hstore]

/-- Concrete instance of `session_write_noninterference`: sessions `"a"`
and `"b"` on the empty global store, observing the same-named signal. -/
theorem session_write_noninterference_witness :
    ((countSig.valueG appNoStatics (some "b") none
        (countSig.set appNoStatics (some "a") (.vInt 7) gEmpty)).1 =
      (countSig.valueG appNoStatics (some "b") none gEmpty).1) ∧
    (_render_allG appNoStatics (some "b")
      (countSig.set appNoStatics (some "a") (.vInt 7) gEmpty)).1 =
      (_render_allG appNoStatics (some "b") gEmpty).1 :=
  ⟨(session_write_noninterference appNoStatics countSig "a" "b" (.vInt 7) gEmpty
      (by decide)).1 countSig none,
   (session_write_noninterference appNoStatics countSig "a" "b" (.vInt 7) gEmpty
      (by decide)).2⟩

theorem Global.put_self (g : Global) (sid : Option String) (st : Store) :
    g.put sid st sid = some st := by
  show (if sid = sid then some st else g sid) = some st
  rw [if_pos rfl]

theorem get_session_store_hit (app : App) {g : Global} {sid : Option String}
    {st : Store} (h : g sid = some st) :
    get_session_store app g sid = (st, g) := by
  unfold get_session_store
  rw [h]

theorem get_next_cid_fst (app : App) (g : Global) (sid : Option String)
    (p : String) :
    (_get_next_cid app g sid p).1 =
      mkCid p (get_session_store app g sid).1.component_count := rfl

theorem get_next_cid_count (app : App) (g : Global) (sid : Option String)
    (p : String) :
    (get_session_store app (_get_next_cid app g sid p).2 sid).1.component_count =
      (get_session_store app g sid).1.component_count + 1 := by
  show (get_session_store app
    ((get_session_store app g sid).2.put sid
      { (get_session_store app g sid).1 with
          component_count := (get_session_store app g sid).1.component_count + 1 })
    sid).1.component_count = _
  rw [get_session_store_hit app (Global.put_self _ sid _)]

theorem get_next_cid_preserves (app : App) (g : Global) (sid : Option String)
    (p : String) : ∀ k, k ≠ sid → (_get_next_cid app g sid p).2 k = g k := by
  intro k hk
  show (get_session_store app g sid).2.put sid _ k = g k
  show (if k = sid then _ else (get_session_store app g sid).2 k) = g k
  rw [if_neg hk]
  unfold get_session_store
  cases g sid with
  | some st => rfl
  | none =>
      show (if k = sid then _ else g k) = g k
      rw [if_neg hk]

theorem genCids_preserves (app : App) (sid : Option String) :
    ∀ (ps : List String) (g : Global) (k : Option String), k ≠ sid →
    (genCids app sid ps g).2 k = g k := by
  intro ps
  induction ps with
  | nil => intro g k _; rfl
  | cons p rest ih =>
      intro g k hk
      show (genCids app sid rest (_get_next_cid app g sid p).2).2 k = g k
      rw [ih _ k hk, get_next_cid_preserves app g sid p k hk]

theorem genCids_count (app : App) (sid : Option String) :
    ∀ (ps : List String) (g : Global),
    (get_session_store app (genCids app sid ps g).2 sid).1.component_count =
      (get_session_store app g sid).1.component_count + ps.length := by
  intro ps
  induction ps with
  | nil => intro g; rfl
  | cons p rest ih =>
      intro g
      show (get_session_store app
        (genCids app sid rest (_get_next_cid app g sid p).2).2 sid).1.component_count = _
      rw [ih, get_next_cid_count]
      simp only [List.length_cons]
      omega

theorem genCids_ids (app : App) (sid : Option String) :
    ∀ (ps : List String) (g : Global) (a : String),
    a ∈ (genCids app sid ps g).1 →
    ∃ p n, a = mkCid p n ∧
      (get_session_store app g sid).1.component_count ≤ n ∧
      n < (get_session_store app g sid).1.component_count + ps.length := by
  intro ps
  induction ps with
  | nil => intro g a ha; simp [genCids] at ha
  | cons p rest ih =>
      intro g a ha
      have ha' : a ∈ (_get_next_cid app g sid p).1 ::
          (genCids app sid rest (_get_next_cid app g sid p).2).1 := ha
      rcases List.mem_cons.mp ha' with rfl | hrest
      · exact ⟨p, (get_session_store app g sid).1.component_count,
          get_next_cid_fst app g sid p, Nat.le_refl _, by
            simp only [List.length_cons]; omega⟩
      · obtain ⟨q, n, hq, hlo, hhi⟩ := ih _ a hrest
        rw [get_next_cid_count] at hlo hhi
        exact ⟨q, n, hq, by omega, by simp only [List.length_cons]; omega⟩

theorem static_count_as_base (app : App) (g : Global) :
    (match g none with
     | some st0 => st0.component_count
     | none => 0) = (get_session_store app g none).1.component_count := by
  unfold get_session_store
  cases g none <;> rfl

theorem fresh_session_inherits_static_count (app : App) (g : Global)
    (s : String) (h : g (some s) = none) :
    (get_session_store app g (some s)).1.component_count =
      (get_session_store app g none).1.component_count := by
  rw [← static_count_as_base app g]
  unfold get_session_store
  rw [h]
  rfl

/-- C5: starting from a process with neither a static store nor a store
for session `s`, run the static (no-session) registration pass
generating ids for the prefixes `ps`, then open session `s` and generate
ids for the prefixes `qs` inside it.  The session's freshly created
store starts its component counter at the value the static pass reached,
and no static id ever collides with a session id. -/
theorem static_session_ids_never_collide (app : App) (ps qs : List String)
    (s : String) (g0 : Global) (h0 : g0 none = none)
    (hs : g0 (some s) = none) :
    ((get_session_store app (genCids app none ps g0).2 (some s)).1.component_count
      = (get_session_store app (genCids app none ps g0).2 none).1.component_count) ∧
    ∀ a ∈ (genCids app none ps g0).1,
      ∀ b ∈ (genCids app (some s) qs (genCids app none ps g0).2).1, a ≠ b := by
  have hstill : (genCids app none ps g0).2 (some s) = none := by
    rw [genCids_preserves app none ps g0 (some s) (by simp), hs]
  have hc0 : (get_session_store app g0 none).1.component_count = 0 := by
    unfold get_session_store
    rw [h0]
    rfl
  refine ⟨fresh_session_inherits_static_count app _ s hstill, ?_⟩
  intro a ha b hb
  obtain ⟨p, n, rfl, _, hn⟩ := genCids_ids app none ps g0 a ha
  obtain ⟨q, m, rfl, hm, _⟩ := genCids_ids app (some s) qs _ b hb
  rw [hc0] at hn
  rw [fresh_session_inherits_static_count app _ s hstill, genCids_count, hc0] at hm
  exact mkCid_ne_of_num_ne (by omega)

/-- Concrete instance of `static_session_ids_never_collide`: one static
id with prefix `"btn"`, one session id with prefix `"card"`, session
`"s"`, starting from the empty global store. -/
theorem static_session_ids_never_collide_witness :
    ((get_session_store appNoStatics
        (genCids appNoStatics none ["btn"] gEmpty).2 (some "s")).1.component_count
      = (get_session_store appNoStatics
        (genCids appNoStatics none ["btn"] gEmpty).2 none).1.component_count) ∧
    ((genCids appNoStatics none ["btn"] gEmpty).1.all (fun a =>
      (genCids appNoStatics (some "s") ["card"]
        (genCids appNoStatics none ["btn"] gEmpty).2).1.all
          (fun b => a != b))) = true := by
  have h := static_session_ids_never_collide appNoStatics ["btn"] ["card"] "s"
    gEmpty rfl rfl
  exact ⟨h.1, List.all_eq_true.mpr (fun a ha => List.all_eq_true.mpr
    (fun b hb => by simpa using h.2 a ha b hb))⟩

/-- C6: a triggering action whose component id has no registered action
callback in either the session store or the static registry is a silent
no-op — the stateless engine answers with an empty response body and the
persistent-channel engine pushes nothing (both paths are total, so no
exception reaches the caller). -/
theorem missing_action_is_silent_noop (app : App) (g : Global)
    (s cid : String) (connected : Bool)
    (h_sess : (get_session_store app g (some s)).1.actions cid = none)
    (h_static : app.static_actions cid = none) :
    (action_endpoint app g (some s) cid).1 = "" ∧
    (process_message app g s connected cid).1 = [] := by
  have hres : resolveAction app (get_session_store app g (some s)).1 cid = none := by
    simp [resolveAction, h_sess, h_static]
  constructor
  · simp only [action_endpoint, hres]
  · simp only [process_message, hres]

/-- Concrete instance of `missing_action_is_silent_noop`: component id
`"ghost"` with no callback anywhere, on a fresh session. -/
theorem missing_action_is_silent_noop_witness :
    (action_endpoint appNoStatics gEmpty (some "s") "ghost").1 = "" ∧
    (process_message appNoStatics gEmpty "s" true "ghost").1 = [] :=
  missing_action_is_silent_noop appNoStatics gEmpty "s" "ghost" true rfl rfl

/-- C7: registering a component while a fragment scope is active and the
layout target is `"sidebar"` routes the id to the sidebar's top-level
order list — the static one when no session is active (deduplicated), the
session's one otherwise (appended) — and leaves both fragment child-list
maps (static and session-scoped) unchanged. -/
theorem sidebar_overrides_fragment_scope (app : App) (g : Global)
    (sid : Option String) (fid cid : String) (b : Builder)
    (act : Option ActionFn) :
    ((_register_component app g sid (some fid) "sidebar" cid b act).1.static_fragment_components
      = app.static_fragment_components) ∧
    ∃ st', (_register_component app g sid (some fid) "sidebar" cid b act).2 sid = some st' ∧
      st'.fragment_components = (get_session_store app g sid).1.fragment_components ∧
      st'.sidebar_order = (match sid with
        | none => (get_session_store app g sid).1.sidebar_order
        | some _ => (get_session_store app g sid).1.sidebar_order ++ [cid]) ∧
      (_register_component app g sid (some fid) "sidebar" cid b act).1.static_sidebar_order =
        (match sid with
          | none => if cid ∈ app.static_sidebar_order then app.static_sidebar_order
                    else app.static_sidebar_order ++ [cid]
          | some _ => app.static_sidebar_order) := by
  cases sid with
  | none =>
      refine ⟨rfl, ⟨{ (get_session_store app g none).1 with
        builders := fun k => if k = cid then some b else (get_session_store app g none).1.builders k
        actions := fun k => match act with
          | some a => if k = cid then some a else (get_session_store app g none).1.actions k
          | none => (get_session_store app g none).1.actions k }, rfl, rfl, rfl, rfl⟩⟩
  | some s =>
      have hput := Global.put_self (get_session_store app g (some s)).2 (some s)
        { (get_session_store app g (some s)).1 with
          builders := fun k => if k = cid then some b else (get_session_store app g (some s)).1.builders k
          actions := fun k => match act with
            | some a => if k = cid then some a else (get_session_store app g (some s)).1.actions k
            | none => (get_session_store app g (some s)).1.actions k
          sidebar_order := (get_session_store app g (some s)).1.sidebar_order ++ [cid] }
      exact ⟨rfl, ⟨_, hput, rfl, rfl, rfl⟩⟩

theorem render_cids_states (app : App) : ∀ (cids : List String)
    (acc : List String) (st : Store),
    ((render_cids app cids acc st).2).states = st.states := by
  intro cids
  induction cids with
  | nil => intro acc st; rfl
  | cons cid rest ih =>
      intro acc st
      show ((match resolveBuilder app st cid with
        | some b => render_cids app rest (acc ++ [(b.run cid st).1.render]) (b.run cid st).2
        | none => render_cids app rest acc st).2).states = st.states
      cases resolveBuilder app st cid with
      | some b => rw [ih]; exact Builder.run_states b cid st
      | none => exact ih acc st

theorem render_cids_builders (app : App) : ∀ (cids : List String)
    (acc : List String) (st : Store),
    ((render_cids app cids acc st).2).builders = st.builders := by
  intro cids
  induction cids with
  | nil => intro acc st; rfl
  | cons cid rest ih =>
      intro acc st
      show ((match resolveBuilder app st cid with
        | some b => render_cids app rest (acc ++ [(b.run cid st).1.render]) (b.run cid st).2
        | none => render_cids app rest acc st).2).builders = st.builders
      cases resolveBuilder app st cid with
      | some b => rw [ih]; exact Builder.run_builders b cid st
      | none => exact ih acc st

theorem render_cids_spec (app : App) : ∀ (cids : List String)
    (acc : List String) (st st₀ : Store),
    st.states = st₀.states → st.builders = st₀.builders →
    (render_cids app cids acc st).1 = acc ++ cids.filterMap
      (fun cid => (resolveBuilder app st₀ cid).map
        (fun b => (b.run cid st₀).1.render)) := by
  intro cids
  induction cids with
  | nil => intro acc st st₀ _ _; simp [render_cids]
  | cons cid rest ih =>
      intro acc st st₀ hs hb
      have hres : resolveBuilder app st cid = resolveBuilder app st₀ cid :=
        resolveBuilder_congr app cid hb
      show (match resolveBuilder app st cid with
        | some b => render_cids app rest (acc ++ [(b.run cid st).1.render]) (b.run cid st).2
        | none => render_cids app rest acc st).1 = _
      rw [hres]
      cases hr : resolveBuilder app st₀ cid with
      | some b =>
          rw [ih _ (b.run cid st).2 st₀
            ((Builder.run_states b cid st).trans hs)
            ((Builder.run_builders b cid st).trans hb)]
          rw [Builder.run_fst_congr b cid hs]
          simp [List.filterMap_cons, hr]
      | none =>
          rw [ih _ st st₀ hs hb]
          simp [List.filterMap_cons, hr]

/-- C8: `_render_all` returns exactly the pair of HTML strings the
specification describes — the main string is the concatenation, in list
order, of the renders of the static main order followed by the session's
dynamic main order, each id resolved through the session builders first
with the static builders as fallback and silently skipped when neither
has it; likewise the sidebar string over the two sidebar order lists
(the dependency edges a builder registers never change what a later
builder renders, so every id renders as against the initial store). -/
theorem render_all_matches_spec (app : App) (st : Store) :
    (_render_all app st).1 = render_all_spec app st := by
  have h1s := render_cids_states app app.static_order [] st
  have h1b := render_cids_builders app app.static_order [] st
  have h2s := render_cids_states app app.static_sidebar_order []
    (render_cids app app.static_order [] st).2
  have h2b := render_cids_builders app app.static_sidebar_order []
    (render_cids app app.static_order [] st).2
  have h3s := render_cids_states app st.order
    (render_cids app app.static_order [] st).1
    (render_cids app app.static_sidebar_order [] (render_cids app app.static_order [] st).2).2
  have h3b := render_cids_builders app st.order
    (render_cids app app.static_order [] st).1
    (render_cids app app.static_sidebar_order [] (render_cids app app.static_order [] st).2).2
  show (String.join (render_cids app st.order
      (render_cids app app.static_order [] st).1
      (render_cids app app.static_sidebar_order [] (render_cids app app.static_order [] st).2).2).1,
    String.join (render_cids app st.sidebar_order
      (render_cids app app.static_sidebar_order [] (render_cids app app.static_order [] st).2).1
      (render_cids app st.order
        (render_cids app app.static_order [] st).1
        (render_cids app app.static_sidebar_order [] (render_cids app app.static_order [] st).2).2).2).1)
    = render_all_spec app st
  rw [render_cids_spec app st.order _ _ st (by rw [h2s, h1s]) (by rw [h2b, h1b])]
  rw [render_cids_spec app st.sidebar_order _ _ st
    (by rw [h3s, h2s, h1s]) (by rw [h3b, h2b, h1b])]
  rw [render_cids_spec app app.static_order [] st st rfl rfl]
  rw [render_cids_spec app app.static_sidebar_order []
    (render_cids app app.static_order [] st).2 st h1s h1b]
  simp [render_all_spec, List.filterMap_append]

theorem peek_setStore (s : State) (v : PyVal) (st : Store) :
    s.peek (s.setStore v st) = v := by
  simp [State.peek, State.setStore]

/-- C9 counterexample: the claim fails as stated.  `*` on two textual
operands does not degrade to string repetition — it evaluates the native
`*`, which is a `TypeError` (modelled `none`); and `+` on a
number/string mix does not match the host language's native operator
semantics — the native `+` is a `TypeError`, while the overloaded
operator returns the concatenation of the stringified operands. -/
theorem loose_coercion_claim_counterexample :
    ((State.mk "s" (.vStr "ab")).__mul__ (.plainOp (.vStr "cd"))).func
      (freshStore 0 "light") = none ∧
    ((State.mk "n" (.vInt 1)).__add__ (.plainOp (.vStr "x"))).func
      (freshStore 0 "light") = some (.vStr "1x") ∧
    py_add (.vInt 1) (.vStr "x") = none := by decide

/-- C9 (amended): for every derived value built with `+` or `*` (direct
or reflected) on a `State` or a `ComputedState`, when it is read: if
either operand's runtime value is textual, `+` degrades to concatenation
of the stringified operands in operand order (diverging from the native
`+`, which rejects a string/number mix); otherwise `+` is the native
addition.  `*` always evaluates the native `*` at the operands' runtime
types — string repetition exactly when one operand is textual and the
other an integer, a `TypeError` when both are textual, ordinary
multiplication otherwise. -/
theorem add_mul_loose_coercion_amended (s : State) (c : ComputedState)
    (o : Operand) (st : Store) (sv cv ov : PyVal) (h1 : s.peek st = sv)
    (hc : c.func st = some cv) (h2 : o.value st = some ov) :
    ((s.__add__ o).func st =
      (if sv.isStrVal || ov.isStrVal then some (.vStr (pyStr sv ++ pyStr ov))
       else py_add sv ov)) ∧
    ((s.__radd__ o).func st =
      (if sv.isStrVal || ov.isStrVal then some (.vStr (pyStr ov ++ pyStr sv))
       else py_add ov sv)) ∧
    ((s.__mul__ o).func st = py_mul sv ov) ∧
    ((s.__rmul__ o).func st = py_mul ov sv) ∧
    ((c.__add__ o).func st =
      (if cv.isStrVal || ov.isStrVal then some (.vStr (pyStr cv ++ pyStr ov))
       else py_add cv ov)) ∧
    ((c.__radd__ o).func st =
      (if cv.isStrVal || ov.isStrVal then some (.vStr (pyStr ov ++ pyStr cv))
       else py_add ov cv)) ∧
    ((c.__mul__ o).func st = py_mul cv ov) ∧
    ((c.__rmul__ o).func st = py_mul ov cv) := by
  subst h1
  refine ⟨?_, ?_, ?_, ?_, ?_, ?_, ?_, ?_⟩
  · simp only [State.__add__, h2]
  · simp only [State.__radd__, h2]
  · simp only [State.__mul__, h2, ite_self]
  · simp only [State.__rmul__, h2, ite_self]
  · simp only [ComputedState.__add__, hc, h2]
  · simp only [ComputedState.__radd__, hc, h2]
  · simp only [ComputedState.__mul__, hc, h2, ite_self]
  · simp only [ComputedState.__rmul__, hc, h2, ite_self]

/-- Concrete instance of `add_mul_loose_coercion_amended`: a signal
holding `"ab"` and a derived signal evaluating to `2`, each combined
with the plain operand `3`. -/
theorem add_mul_loose_coercion_amended_witness :
    (((State.mk "x" (.vStr "ab")).__add__ (.plainOp (.vInt 3))).func
      (freshStore 0 "light") =
      (if (PyVal.vStr "ab").isStrVal || (PyVal.vInt 3).isStrVal then
        some (.vStr (pyStr (.vStr "ab") ++ pyStr (.vInt 3)))
       else py_add (.vStr "ab") (.vInt 3))) ∧
    (((State.mk "x" (.vStr "ab")).__radd__ (.plainOp (.vInt 3))).func
      (freshStore 0 "light") =
      (if (PyVal.vStr "ab").isStrVal || (PyVal.vInt 3).isStrVal then
        some (.vStr (pyStr (.vInt 3) ++ pyStr (.vStr "ab")))
       else py_add (.vInt 3) (.vStr "ab"))) ∧
    (((State.mk "x" (.vStr "ab")).__mul__ (.plainOp (.vInt 3))).func
      (freshStore 0 "light") = py_mul (.vStr "ab") (.vInt 3)) ∧
    (((State.mk "x" (.vStr "ab")).__rmul__ (.plainOp (.vInt 3))).func
      (freshStore 0 "light") = py_mul (.vInt 3) (.vStr "ab")) ∧
    ((ComputedState.mk (fun _ => some (.vInt 2))).__add__
      (.plainOp (.vInt 3))).func (freshStore 0 "light") =
      (if (PyVal.vInt 2).isStrVal || (PyVal.vInt 3).isStrVal then
        some (.vStr (pyStr (.vInt 2) ++ pyStr (.vInt 3)))
       else py_add (.vInt 2) (.vInt 3)) ∧
    ((ComputedState.mk (fun _ => some (.vInt 2))).__radd__
      (.plainOp (.vInt 3))).func (freshStore 0 "light") =
      (if (PyVal.vInt 2).isStrVal || (PyVal.vInt 3).isStrVal then
        some (.vStr (pyStr (.vInt 3) ++ pyStr (.vInt 2)))
       else py_add (.vInt 3) (.vInt 2)) ∧
    ((ComputedState.mk (fun _ => some (.vInt 2))).__mul__
      (.plainOp (.vInt 3))).func (freshStore 0 "light") =
      py_mul (.vInt 2) (.vInt 3) ∧
    ((ComputedState.mk (fun _ => some (.vInt 2))).__rmul__
      (.plainOp (.vInt 3))).func (freshStore 0 "light") =
      py_mul (.vInt 3) (.vInt 2) :=
  add_mul_loose_coercion_amended (State.mk "x" (.vStr "ab"))
    (ComputedState.mk (fun _ => some (.vInt 2))) (.plainOp (.vInt 3))
    (freshStore 0 "light") (.vStr "ab") (.vInt 2) (.vInt 3) rfl rfl rfl

/-- C10: every comparison on a `State` evaluates to a `ComputedState`
wrapping a deferred comparison — forcing the wrapper after a write reads
the value current at that moment (here: the freshly written `v`) and
yields a boolean-valued `PyVal`, never a plain boolean at creation time;
and the `State` class, overriding `__eq__` without defining `__hash__`,
is unhashable. -/
theorem comparison_operators_deferred_and_unhashable (s : State)
    (o : Operand) (v : PyVal) (st : Store) :
    ((s.__eq__ o).func (s.setStore v st) =
      (o.value (s.setStore v st)).map (fun ov => .vBool (py_eq v ov))) ∧
    ((s.__ne__ o).func (s.setStore v st) =
      (o.value (s.setStore v st)).map (fun ov => .vBool (!py_eq v ov))) ∧
    ((s.__lt__ o).func (s.setStore v st) =
      (o.value (s.setStore v st)).bind (fun ov => (py_lt v ov).map PyVal.vBool)) ∧
    ((s.__le__ o).func (s.setStore v st) =
      (o.value (s.setStore v st)).bind (fun ov => (py_le v ov).map PyVal.vBool)) ∧
    ((s.__gt__ o).func (s.setStore v st) =
      (o.value (s.setStore v st)).bind (fun ov => (py_lt ov v).map PyVal.vBool)) ∧
    ((s.__ge__ o).func (s.setStore v st) =
      (o.value (s.setStore v st)).bind (fun ov => (py_le ov v).map PyVal.vBool)) ∧
    StateClass.hashable = false := by
  refine ⟨?_, ?_, ?_, ?_, ?_, ?_, rfl⟩ <;>
    simp [State.__eq__, State.__ne__, State.__lt__, State.__le__,
      State.__gt__, State.__ge__, peek_setStore]

end Violit
